import Mathlib

/-!
Verification of the risk-detection engine of the early-warning dashboard
(`app.py` and `score_dashboard.py`).

Scores are modelled as rationals (`ℚ`); a missing score (pandas `NaN` /
blank cell) is `none : Option ℚ`.  DataFrames are modelled as a pair of a
column-name list and a typed row list where the claims need the column
structure, and as plain row lists elsewhere.  Formatted reason strings whose
only role is display are modelled by injective tags where noted.
-/

/-- Severity band, as returned by `color_light` in `app.py` (lines 58-65).
The source returns the strings "RED"/"YELLOW"/"GREEN"/"GRAY"; the spec calls
the gray band ABSENT. -/
inductive Band
  | RED
  | YELLOW
  | GREEN
  | GRAY
deriving DecidableEq, Repr

/-- `color_light(score, red_max, yellow_max)` from `app.py` lines 58-65:
missing score ↦ GRAY, `score <= red_max` ↦ RED, else `score <= yellow_max`
↦ YELLOW, else GREEN. -/
def color_light (score : Option ℚ) (red_max yellow_max : ℚ) : Band :=
  match score with
  | none => Band.GRAY
  | some s =>
      if s ≤ red_max then Band.RED
      else if s ≤ yellow_max then Band.YELLOW
      else Band.GREEN

/-- `color_cell(v)` from `score_dashboard.py` lines 159-171: blank or
non-numeric cells get no background (modelled by `none`), `x <= red_th` gets
the red background, else `x <= yellow_th` the yellow one, else green. -/
def color_cell (v : Option ℚ) (red_th yellow_th : ℚ) : String :=
  match v with
  | none => ""
  | some x =>
      if x ≤ red_th then "background-color: #f8d7da;"
      else if x ≤ yellow_th then "background-color: #fff3cd;"
      else "background-color: #d4edda;"

/-- The `counts(series)` helper inside `window_any_subject_alert_AND`
(`score_dashboard.py` lines 207-211): `reds = (series <= red).sum()`,
`yellows = ((series > red) & (series <= yellow)).sum()`, `total = reds +
yellows`. -/
def counts (series : List ℚ) (red_threshold yellow_threshold : ℚ) : Nat × Nat × Nat :=
  let reds := series.countP (fun s => decide (s ≤ red_threshold))
  let yellows := series.countP (fun s => decide (red_threshold < s ∧ s ≤ yellow_threshold))
  (reds, yellows, reds + yellows)

/-- The AND-rule trigger test applied to one subject's window scores
(`score_dashboard.py` lines 217-220): `reds >= min_red and total >= min_total`. -/
def subjectTrigger (series : List ℚ) (red yellow : ℚ) (min_red min_total : Nat) : Bool :=
  decide (min_red ≤ (counts series red yellow).1) &&
    decide (min_total ≤ (counts series red yellow).2.2)

/-- `WEEKS_FULL = list(range(1, 19))` from `score_dashboard.py` line 137. -/
def WEEKS_FULL : List Nat := List.range' 1 18

/-- `win_weeks = WEEKS_FULL[i:i+window_len]` (`score_dashboard.py` line 200). -/
def winWeeks (i window_len : Nat) : List Nat :=
  (WEEKS_FULL.drop i).take window_len

/-- One output row of `window_any_subject_alert_AND` (lines 224-234).
`weeks` models the `"w0–w1"` string by the week list itself, and
`trigBio`/`trigMol` model the formatted trigger strings by the (reds,
yellows) counts when the corresponding subject triggered (`none` when it did
not).  Pure display metadata (`Name`, cohort, department, window length) is
omitted. -/
structure AlertRow where
  id : String
  weeks : List Nat
  bioScores : List ℚ
  molScores : List ℚ
  trigBio : Option (Nat × Nat)
  trigMol : Option (Nat × Nat)
deriving DecidableEq, Repr

/-- The body of the window loop of `window_any_subject_alert_AND`
(`score_dashboard.py` lines 199-234) for one student and one window start
`i`: skip the window if any week of it is missing a score in either subject
(`sub.isna().any().any()`), otherwise compute the per-subject counts and
emit a row when either subject satisfies the AND rule. -/
def windowRow (sid : String) (bio mol : Nat → Option ℚ) (red yellow : ℚ)
    (window_len min_red min_total : Nat) (i : Nat) : Option AlertRow :=
  let win := winWeeks i window_len
  if (win.all fun w => (bio w).isSome) && (win.all fun w => (mol w).isSome) then
    let bs := win.filterMap bio
    let ms := win.filterMap mol
    let tb := subjectTrigger bs red yellow min_red min_total
    let tm := subjectTrigger ms red yellow min_red min_total
    if tb || tm then
      some { id := sid, weeks := win, bioScores := bs, molScores := ms,
             trigBio := if tb then some ((counts bs red yellow).1, (counts bs red yellow).2.1)
                        else none,
             trigMol := if tm then some ((counts ms red yellow).1, (counts ms red yellow).2.1)
                        else none }
    else none
  else none

/-- All alert rows produced for one student by the loop
`for i in range(len(WEEKS_FULL) - window_len + 1)` of
`window_any_subject_alert_AND`.  `len(WEEKS_FULL) - window_len + 1`
evaluates (for the Python ints in play, window length at least 1) to
`19 - window_len`, which also matches the truncated Nat subtraction when the
window is longer than 18 weeks (both give an empty range). -/
def student_alert_rows (sid : String) (bio mol : Nat → Option ℚ) (red yellow : ℚ)
    (window_len min_red min_total : Nat) : List AlertRow :=
  (List.range (19 - window_len)).filterMap
    (windowRow sid bio mol red yellow window_len min_red min_total)

/-- The output columns of `window_any_subject_alert_AND`
(`score_dashboard.py` lines 195 and 237), identical in the empty and
non-empty branches. -/
def alertCols : List String :=
  ["ID", "Name", "Weeks", "Biochem_scores", "MolBio_scores", "觸發條件", "視窗長度", "學籍", "系所"]

/-- The key of `df_out.drop_duplicates(subset=["ID","Weeks","觸發條件"])`
(`score_dashboard.py` line 240); the trigger strings are modelled by the
structured trigger fields. -/
def alertKey (r : AlertRow) : String × List Nat × Option (Nat × Nat) × Option (Nat × Nat) :=
  (r.id, r.weeks, r.trigBio, r.trigMol)

/-- `drop_duplicates` with the default `keep="first"`: keep a row exactly
when no earlier row carries the same key, preserving order. -/
def dedupAlerts (seen : List (String × List Nat × Option (Nat × Nat) × Option (Nat × Nat))) :
    List AlertRow → List AlertRow
  | [] => []
  | r :: rest =>
      if alertKey r ∈ seen then dedupAlerts seen rest
      else r :: dedupAlerts (alertKey r :: seen) rest

/-- The `out_rows` accumulated by the student loop of
`window_any_subject_alert_AND` (`score_dashboard.py` lines 197-234).  The
input models `df_score.groupby("ID")` followed by
`set_index("Week").reindex(WEEKS_FULL)` as a list of
(ID, Biochem week map, MolBio week map) triples; the week maps return
`none` for missing weeks, as `reindex` does. -/
def allAlertRows (data : List (String × (Nat → Option ℚ) × (Nat → Option ℚ)))
    (red yellow : ℚ) (window_len min_red min_total : Nat) : List AlertRow :=
  (data.map fun d =>
    student_alert_rows d.1 d.2.1 d.2.2 red yellow window_len min_red min_total).flatten

/-- `window_any_subject_alert_AND` (`score_dashboard.py` lines 180-241) over
the whole frame: the empty-frame guard at line 194, the student loop
(through `allAlertRows`), the `if not out_rows` guard at line 236, and the
final `drop_duplicates` at line 240.  All branches carry the same columns. -/
def window_any_subject_alert_AND
    (data : List (String × (Nat → Option ℚ) × (Nat → Option ℚ)))
    (red yellow : ℚ) (window_len min_red min_total : Nat) :
    List String × List AlertRow :=
  if data.isEmpty then (alertCols, [])
  else if (allAlertRows data red yellow window_len min_red min_total).isEmpty then
    (alertCols, [])
  else (alertCols, dedupAlerts [] (allAlertRows data red yellow window_len min_red min_total))

/-- One step of the consecutive-run loop of `risk_for` inside
`risk_snapshot_basic` (`app.py` lines 120-129).  State is
(cons_red, cons_yellow, max_red, max_yellow). -/
def stepRun (target : Band) (c : Nat) (b : Band) : Nat :=
  if b = target then c + 1 else 0

/-- The loop body: RED increments `cons_red` and zeroes `cons_yellow`,
YELLOW the converse, anything else zeroes both; both maxima are then
updated. -/
def runStep (st : Nat × Nat × Nat × Nat) (b : Band) : Nat × Nat × Nat × Nat :=
  (stepRun Band.RED st.1 b, stepRun Band.YELLOW st.2.1 b,
   max st.2.2.1 (stepRun Band.RED st.1 b), max st.2.2.2 (stepRun Band.YELLOW st.2.1 b))

/-- The reason string `"連續≥2 週紅燈"` appended at `app.py` line 131. -/
def redReasonStr : String := "連續≥2 週紅燈"

/-- The reason string `"連續≥3 週黃燈"` appended at `app.py` line 132. -/
def yellowReasonStr : String := "連續≥3 週黃燈"

/-- `risk_for(student_df)` from `app.py` lines 118-133: run the consecutive
counter over the ordered band list and join the triggered reasons with
`"; "`. -/
def risk_for (s : List Band) : String :=
  let st := s.foldl runStep (0, 0, 0, 0)
  String.intercalate "; "
    ((if 2 ≤ st.2.2.1 then [redReasonStr] else []) ++
     (if 3 ≤ st.2.2.2 then [yellowReasonStr] else []))

/-- Projection of the fold: longest run tracker for a single colour,
carrying (current streak, maximum so far). -/
def runState (target : Band) (s : List Band) (c m : Nat) : Nat × Nat :=
  s.foldl (fun p b => (stepRun target p.1 b, max p.2 (stepRun target p.1 b))) (c, m)

/-- Reference recursion: the largest streak of `target` reached while
scanning `s`, starting with an incoming streak of `c`. -/
def maxRunFrom (target : Band) : Nat → List Band → Nat
  | _, [] => 0
  | c, b :: rest =>
      if b = target then max (c + 1) (maxRunFrom target (c + 1) rest)
      else maxRunFrom target 0 rest

/-- `s` contains `k` consecutive weeks of band `t`. -/
def HasRun (t : Band) (k : Nat) (s : List Band) : Prop :=
  ∃ l₁ l₂, s = l₁ ++ (List.replicate k t ++ l₂)

/-- Threshold configuration (`thresholds` dict of `app.py`, defaults at
lines 40-44), with the `advanced` sub-dict flattened. -/
structure Thresholds where
  global_red : ℚ
  global_yellow : ℚ
  by_program : List (String × ℚ × ℚ)
  mid_low : ℚ
  final_low : ℚ
  cross_gap : ℚ
deriving DecidableEq, Repr

/-- `get_pair(row)` inside `apply_thresholds` (`app.py` lines 70-78):
`if prog and prog in thresholds["by_program"]` use the per-program pair,
otherwise the global pair.  A missing program (pandas `NaN` after the left
merge, which is not a dict key) and the falsy empty string both fall back to
the global pair. -/
def get_pair (prog : Option String) (t : Thresholds) : ℚ × ℚ :=
  match prog with
  | some p =>
      if p ≠ "" then
        match t.by_program.lookup p with
        | some pr => pr
        | none => (t.global_red, t.global_yellow)
      else (t.global_red, t.global_yellow)
  | none => (t.global_red, t.global_yellow)

/-- A raw cell of the uploaded `raw_score` column before
`pd.to_numeric(..., errors="coerce")`: a number, a blank, or a non-numeric
text. -/
inductive RawCell
  | num (q : ℚ)
  | blank
  | text (s : String)
deriving DecidableEq, Repr

/-- `pd.to_numeric(new_scores["raw_score"], errors="coerce")`
(`app.py` line 274): numbers stay, blanks and non-numeric text become
missing. -/
def to_numeric_coerce : RawCell → Option ℚ
  | RawCell.num q => some q
  | RawCell.blank => none
  | RawCell.text _ => none

/-- A row of an uploaded scores CSV (after the `week` column has been read
as an integer, which `astype(int)` at line 273 requires). -/
structure RawScoreRow where
  student_id : String
  week : Int
  subject : String
  ty : String
  raw : RawCell
deriving DecidableEq, Repr

/-- `SUBJECTS` from `app.py` line 17. -/
def SUBJECTS : List String := ["BIOCHEM", "MOLBIO"]

/-- `ASSESS_TYPES` from `app.py` line 18. -/
def ASSESS_TYPES : List String := ["WEEKLY", "MIDTERM", "FINAL"]

/-- A validated score row (the shape of `scores_master.csv`). -/
structure CleanScoreRow where
  student_id : String
  week : Int
  subject : String
  ty : String
  raw_score : Option ℚ
deriving DecidableEq, Repr

/-- `.str.upper().str.strip()` applied to the subject and type columns
(`app.py` lines 271-272), modelled on the character list: upper-case every
character, then drop leading and trailing whitespace. -/
def normalizeCol (s : String) : String :=
  String.mk ((((s.data.map Char.toUpper).dropWhile Char.isWhitespace).reverse.dropWhile
    Char.isWhitespace).reverse)

/-- The per-row normalisation of the upload block (`app.py` lines 271-274):
upper-case and strip the enums and coerce the raw score. -/
def cleanRow (r : RawScoreRow) : CleanScoreRow :=
  { student_id := r.student_id, week := r.week,
    subject := normalizeCol r.subject, ty := normalizeCol r.ty,
    raw_score := to_numeric_coerce r.raw }

/-- The `ok` mask of `app.py` line 275: subject and type in their enums and
week between 1 and 18 inclusive.  Note the mask does not look at
`raw_score`. -/
def row_ok (r : CleanScoreRow) : Bool :=
  SUBJECTS.contains r.subject && ASSESS_TYPES.contains r.ty &&
    decide (1 ≤ r.week) && decide (r.week ≤ 18)

/-- The validation step of the upload block (`app.py` lines 266-278): clean
every row, keep the rows passing `ok`, and report the number of discarded
rows (`len(new_scores[~ok])`). -/
def validate_scores (rows : List RawScoreRow) : List CleanScoreRow × Nat :=
  let cleaned := rows.map cleanRow
  (cleaned.filter row_ok, cleaned.countP fun r => !row_ok r)

/-- The upsert key `["student_id","week","subject","type"]` of `app.py`
line 286. -/
def recKey (r : CleanScoreRow) : String × Int × String × String :=
  (r.student_id, r.week, r.subject, r.ty)

/-- `drop_duplicates(subset=key, keep="last")` (`app.py` line 284): a row
survives exactly when no later row carries the same key; order is
preserved. -/
def dedupLast : List CleanScoreRow → List CleanScoreRow
  | [] => []
  | r :: rest =>
      if rest.any (fun x => decide (recKey x = recKey r)) then dedupLast rest
      else r :: dedupLast rest

/-- The upsert of the upload block (`app.py` lines 279-291): de-duplicate
the new rows keeping the last, drop the master rows whose key occurs among
the new rows, and append the new rows. -/
def upload (master new : List CleanScoreRow) : List CleanScoreRow :=
  let n := dedupLast new
  if master.length = 0 then n
  else (master.filter fun m => !(n.any fun x => decide (recKey x = recKey m))) ++ n

/-- At most one record per (student, week, subject, type) key. -/
def uniqueKeys (l : List CleanScoreRow) : Prop := (l.map recKey).Nodup

/-- A row of the merged analytic table built by `apply_thresholds`. -/
structure MergedRow where
  student_id : String
  week : Int
  subject : String
  ty : String
  raw_score : Option ℚ
  program : Option String
  red_max : ℚ
  yellow_max : ℚ
  light : Band
  assessment_key : String
deriving DecidableEq, Repr

/-- Columns of the scores frame plus the `program` column added by the left
merge at `app.py` line 69. -/
def mergedBaseCols : List String :=
  ["student_id", "week", "subject", "type", "raw_score", "program"]

/-- The program of a student after
`scores.merge(students[["student_id","program"]], how="left")`: `none` when
the student is not in the roster or has no program value. -/
def lookupProgram (students : List (String × Option String)) (sid : String) : Option String :=
  match students.lookup sid with
  | some p => p
  | none => none

/-- The `f"{week:02d}"` part of the assessment key (`app.py` line 88). -/
def pad2 (w : Int) : String :=
  if 0 ≤ w ∧ w < 10 then "0" ++ toString w else toString w

/-- One enriched row of `apply_thresholds` (`app.py` lines 79-88): resolved
program, effective thresholds, band, and assessment key. -/
def mkMergedRow (t : Thresholds) (students : List (String × Option String))
    (r : CleanScoreRow) : MergedRow :=
  let prog := lookupProgram students r.student_id
  let pair := get_pair prog t
  { student_id := r.student_id, week := r.week, subject := r.subject, ty := r.ty,
    raw_score := r.raw_score, program := prog,
    red_max := pair.1, yellow_max := pair.2,
    light := color_light r.raw_score pair.1 pair.2,
    assessment_key := pad2 r.week ++ "-" ++ r.subject ++ "-" ++ r.ty }

/-- `apply_thresholds(scores_df, thresholds, students_df)` (`app.py` lines
67-89), with explicit column bookkeeping: both branches add the
`red_max`/`yellow_max`/`light` columns, but the `assessment_key` column is
only added when the merged frame is non-empty (the `if len(merged):` guard
at line 87). -/
def apply_thresholds (scores : List CleanScoreRow) (t : Thresholds)
    (students : List (String × Option String)) : List String × List MergedRow :=
  if scores.length = 0 then (mergedBaseCols ++ ["red_max", "yellow_max", "light"], [])
  else (mergedBaseCols ++ ["red_max", "yellow_max", "light", "assessment_key"],
        scores.map (mkMergedRow t students))

/-- Code-point-wise lexicographic comparison of character lists, matching
the ordering Python/pandas uses on the student-id strings. -/
def charListLe : List Char → List Char → Bool
  | [], _ => true
  | _ :: _, [] => false
  | a :: as, b :: bs =>
      if a.val < b.val then true
      else if b.val < a.val then false
      else charListLe as bs

/-- Lexicographic string comparison by code points. -/
def strLe (a b : String) : Bool := charListLe a.data b.data

/-- Stable insertion into a sorted list (helper for the pandas sorts). -/
def insertSortedBy (le : α → α → Bool) (a : α) : List α → List α
  | [] => [a]
  | b :: t => if le a b then a :: b :: t else b :: insertSortedBy le a t

/-- Stable insertion sort (models `sort_values` / sorted `groupby` keys). -/
def sortBy (le : α → α → Bool) (l : List α) : List α :=
  l.foldr (insertSortedBy le) []

/-- `risk_snapshot_basic(merged)` (`app.py` lines 110-136) with column
bookkeeping: an empty merged frame returns the bare `pd.DataFrame()` (no
columns); otherwise the weekly rows are sorted by (student, week), grouped
by student, scanned by `risk_for`, and students whose reason string is empty
are dropped. -/
def risk_snapshot_basic (merged : List MergedRow) : List String × List (String × String) :=
  if merged.length = 0 then ([], [])
  else
    let wk := merged.filter fun r => r.ty == "WEEKLY"
    if wk.length = 0 then (["student_id", "risk_reason"], [])
    else
      let ids := sortBy strLe ((wk.map fun r => r.student_id).dedup)
      let rows := ids.map fun sid =>
        (sid,
         risk_for ((sortBy (fun a b => decide (a.week ≤ b.week))
            (wk.filter fun r => r.student_id == sid)).map fun r => r.light))
      (["student_id", "risk_reason"], rows.filter fun p => p.2 ≠ "")

/-- Tags standing for the three formatted reason strings of
`risk_snapshot_advanced` (`app.py` lines 166-173); the formatted text is a
fixed function of the thresholds, so the tag list represents the joined
`adv_reason` string injectively for a fixed configuration. -/
inductive AdvReason
  | midGap
  | finGap
  | crossGap
deriving DecidableEq, Repr

/-- `Series.mean()` over a column with missing values: pandas skips the
missing entries and yields `NaN` (here `none`) when nothing remains. -/
def mean_opt (l : List (Option ℚ)) : Option ℚ :=
  let v := l.filterMap id
  if v.length = 0 then none else some (v.sum / (v.length : ℚ))

/-- `(by_subj["BIOCHEM"] - by_subj["MOLBIO"]).abs()` (`app.py` line 159):
missing (`NaN`) as soon as either subject mean is missing. -/
def cross_gap_of (b m : Option ℚ) : Option ℚ :=
  match b, m with
  | some b, some m => some |b - m|
  | _, _ => none

/-- First condition of `reason(row)` in `risk_snapshot_advanced` (`app.py`
lines 166-168): weekly mean at least the global yellow cutoff but midterm
mean below `mid_low`, fired only when both operands are non-missing
(`pd.notna`). -/
def midPiece (weekly mid : Option ℚ) (g_yellow mid_low : ℚ) : List AdvReason :=
  match weekly with
  | some w =>
      match mid with
      | some m => if g_yellow ≤ w ∧ m < mid_low then [AdvReason.midGap] else []
      | none => []
  | none => []

/-- Second condition (`app.py` lines 169-171), same shape for the final
mean. -/
def finPiece (weekly fin : Option ℚ) (g_yellow final_low : ℚ) : List AdvReason :=
  match weekly with
  | some w =>
      match fin with
      | some f => if g_yellow ≤ w ∧ f < final_low then [AdvReason.finGap] else []
      | none => []
  | none => []

/-- Third condition (`app.py` lines 172-173): cross-subject gap at least
`cross_gap`, skipped when the gap is missing. -/
def gapPiece (gap : Option ℚ) (cg : ℚ) : List AdvReason :=
  match gap with
  | some g => if cg ≤ g then [AdvReason.crossGap] else []
  | none => []

/-- The `reason(row)` function of `risk_snapshot_advanced` (`app.py` lines
164-174): the three conditions in order, each skipped when an operand is
missing. -/
def adv_reasons (weekly mid fin gap : Option ℚ) (g_yellow mid_low final_low cg : ℚ) :
    List AdvReason :=
  midPiece weekly mid g_yellow mid_low ++ finPiece weekly fin g_yellow final_low ++
    gapPiece gap cg

/-- The per-student aggregates of `risk_snapshot_advanced` (`app.py` lines
149-162): weekly mean over both subjects, midterm and final means, and the
cross-subject gap of the per-subject weekly means. -/
def studentAdvRow (merged : List MergedRow) (t : Thresholds) (sid : String) : List AdvReason :=
  let rows := merged.filter fun r => r.student_id == sid
  let weekly := rows.filter fun r => r.ty == "WEEKLY"
  adv_reasons
    (mean_opt (weekly.map fun r => r.raw_score))
    (mean_opt ((rows.filter fun r => r.ty == "MIDTERM").map fun r => r.raw_score))
    (mean_opt ((rows.filter fun r => r.ty == "FINAL").map fun r => r.raw_score))
    (cross_gap_of
      (mean_opt ((weekly.filter fun r => r.subject == "BIOCHEM").map fun r => r.raw_score))
      (mean_opt ((weekly.filter fun r => r.subject == "MOLBIO").map fun r => r.raw_score)))
    t.global_yellow t.mid_low t.final_low t.cross_gap

/-- `risk_snapshot_advanced(merged, thresholds)` (`app.py` lines 138-177):
empty input yields the typed empty frame; otherwise the students having at
least one weekly row are scanned and those with no triggered condition are
excluded. -/
def risk_snapshot_advanced (merged : List MergedRow) (t : Thresholds) :
    List String × List (String × List AdvReason) :=
  if merged.length = 0 then (["student_id", "adv_reason"], [])
  else
    let ids := sortBy strLe
      (((merged.filter fun r => r.ty == "WEEKLY").map fun r => r.student_id).dedup)
    (["student_id", "adv_reason"],
     ids.filterMap fun sid =>
       let r := studentAdvRow merged t sid
       if r ≠ [] then some (sid, r) else none)

/-- Concrete inputs used by the witnesses and counterexamples. -/
def bioEx : Nat → Option ℚ := fun w => if w ≤ 2 then some 35 else some 65

/-- Fully present MolBio series (all green). -/
def molEx : Nat → Option ℚ := fun _ => some 100

/-- Biochem scores 35,35,65,65 on weeks 1-4, missing elsewhere. -/
def bioC4 : Nat → Option ℚ :=
  fun w => if w ≤ 2 then some 35 else if w ≤ 4 then some 65 else none

/-- MolBio series missing only week 1. -/
def molC4 : Nat → Option ℚ := fun w => if w = 1 then none else some 100

/-- Biochem scores 35,35,missing,65 on weeks 1-4 (the spec's gap example),
missing elsewhere. -/
def bioGap : Nat → Option ℚ :=
  fun w => if w = 3 then none else if w ≤ 2 then some 35 else if w = 4 then some 65 else none

/-- Example configuration with one per-program override. -/
def tEx : Thresholds :=
  { global_red := 40, global_yellow := 70, by_program := [("MED", (30, 50))],
    mid_low := 60, final_low := 60, cross_gap := 20 }

/-- First upload of the key (S1, week 3, BIOCHEM, WEEKLY). -/
def rec1 : CleanScoreRow := ⟨"S1", 3, "BIOCHEM", "WEEKLY", some 50⟩

/-- Second upload of the same key with a different score. -/
def rec2 : CleanScoreRow := ⟨"S1", 3, "BIOCHEM", "WEEKLY", some 80⟩

/-- A weekly Biochem score of 75 for student S1. -/
def mergedW : MergedRow :=
  { student_id := "S1", week := 1, subject := "BIOCHEM", ty := "WEEKLY",
    raw_score := some 75, program := none, red_max := 40, yellow_max := 70,
    light := Band.GREEN, assessment_key := "01-BIOCHEM-WEEKLY" }

/-- A midterm Biochem score of 55 for student S1. -/
def mergedM : MergedRow :=
  { student_id := "S1", week := 9, subject := "BIOCHEM", ty := "MIDTERM",
    raw_score := some 55, program := none, red_max := 40, yellow_max := 70,
    light := Band.YELLOW, assessment_key := "09-BIOCHEM-MIDTERM" }

/-- An uploaded score row whose raw score is the non-numeric text "abc". -/
def badC8 : RawScoreRow := ⟨"S1", 1, "BIOCHEM", "WEEKLY", RawCell.text "abc"⟩

/-- Biochem scores 30,30,60,60 on weeks 1-4 (two REDs and two YELLOWs under
red_max=40, yellow_max=70), missing elsewhere. -/
def bioC1 : Nat → Option ℚ :=
  fun w => if w ≤ 2 then some 30 else if w ≤ 4 then some 60 else none

/-- MolBio series missing only week 4. -/
def molC1 : Nat → Option ℚ := fun w => if w = 4 then none else some 90

lemma color_light_red_iff (red_max yellow_max s : ℚ) :
    color_light (some s) red_max yellow_max = Band.RED ↔ s ≤ red_max := by
  simp only [color_light]
  split_ifs with h1 h2
  · exact ⟨fun _ => h1, fun _ => rfl⟩
  · exact ⟨fun h => absurd h (by decide), fun h => absurd h h1⟩
  · exact ⟨fun h => absurd h (by decide), fun h => absurd h h1⟩

lemma color_light_yellow_iff (red_max yellow_max s : ℚ) :
    color_light (some s) red_max yellow_max = Band.YELLOW ↔
      red_max < s ∧ s ≤ yellow_max := by
  simp only [color_light]
  split_ifs with h1 h2
  · exact ⟨fun h => absurd h (by decide), fun h => absurd h1 (not_le.mpr h.1)⟩
  · exact ⟨fun _ => ⟨not_le.mp h1, h2⟩, fun _ => rfl⟩
  · exact ⟨fun h => absurd h (by decide), fun h => absurd h.2 h2⟩

lemma color_light_green_iff (red_max yellow_max s : ℚ) :
    color_light (some s) red_max yellow_max = Band.GREEN ↔
      red_max < s ∧ yellow_max < s := by
  simp only [color_light]
  split_ifs with h1 h2
  · exact ⟨fun h => absurd h (by decide), fun h => absurd h1 (not_le.mpr h.1)⟩
  · exact ⟨fun h => absurd h (by decide), fun h => absurd h2 (not_le.mpr h.2)⟩
  · exact ⟨fun _ => ⟨not_le.mp h1, not_le.mp h2⟩, fun _ => rfl⟩

lemma color_light_ne_gray (red_max yellow_max s : ℚ) :
    color_light (some s) red_max yellow_max ≠ Band.GRAY := by
  simp only [color_light]
  split_ifs <;> decide

/-- C2: the band classifier is a pure total function of
(score, red_max, yellow_max): a missing score maps to the gray/ABSENT band
whatever the thresholds, and a present score `s` maps to RED iff
`s ≤ red_max`, to YELLOW iff `red_max < s ≤ yellow_max`, to GREEN in every
other case, and never to the gray band — so each present score receives
exactly one of the three colour bands. -/
theorem c2_band_classifier_total (red_max yellow_max s : ℚ) :
    color_light none red_max yellow_max = Band.GRAY ∧
    (color_light (some s) red_max yellow_max = Band.RED ↔ s ≤ red_max) ∧
    (color_light (some s) red_max yellow_max = Band.YELLOW ↔
      red_max < s ∧ s ≤ yellow_max) ∧
    (color_light (some s) red_max yellow_max = Band.GREEN ↔
      red_max < s ∧ yellow_max < s) ∧
    color_light (some s) red_max yellow_max ≠ Band.GRAY :=
  ⟨rfl, color_light_red_iff red_max yellow_max s,
   color_light_yellow_iff red_max yellow_max s,
   color_light_green_iff red_max yellow_max s,
   color_light_ne_gray red_max yellow_max s⟩

/-- C10: the two script variants share one boundary convention: for every
present score `s` and thresholds, `color_cell` of `score_dashboard.py`
assigns the red background exactly when `color_light` of `app.py` assigns
RED (and likewise yellow and green), and the counting predicates inside
`window_any_subject_alert_AND` count exactly the scores `color_light` would
classify RED resp. YELLOW — both cutoffs inclusive. -/
theorem c10_boundary_convention_equivalence (s red yellow : ℚ) :
    (color_cell (some s) red yellow = "background-color: #f8d7da;" ↔
      color_light (some s) red yellow = Band.RED) ∧
    (color_cell (some s) red yellow = "background-color: #fff3cd;" ↔
      color_light (some s) red yellow = Band.YELLOW) ∧
    (color_cell (some s) red yellow = "background-color: #d4edda;" ↔
      color_light (some s) red yellow = Band.GREEN) ∧
    (∀ series : List ℚ,
      (counts series red yellow).1 =
        series.countP (fun q => color_light (some q) red yellow == Band.RED) ∧
      (counts series red yellow).2.1 =
        series.countP (fun q => color_light (some q) red yellow == Band.YELLOW)) := by
  refine ⟨?_, ?_, ?_, ?_⟩
  · simp only [color_cell, color_light]
    split_ifs <;> simp
  · simp only [color_cell, color_light]
    split_ifs <;> simp
  · simp only [color_cell, color_light]
    split_ifs <;> simp
  · intro series
    constructor
    · simp only [counts]
      refine List.countP_congr ?_
      intro a _
      simp only [decide_eq_true_eq, beq_iff_eq]
      exact (color_light_red_iff red yellow a).symm
    · simp only [counts]
      refine List.countP_congr ?_
      intro a _
      simp only [decide_eq_true_eq, beq_iff_eq]
      exact (color_light_yellow_iff red yellow a).symm

/-- C9: the threshold resolver `get_pair` is deterministic and total: a
non-empty program code present in the per-program map yields its override
pair, and every other case — program missing, program code absent from the
map, or the falsy empty string — yields the global default pair. -/
theorem c9_threshold_resolver_total (t : Thresholds) :
    (∀ p pr, p ≠ "" → t.by_program.lookup p = some pr →
      get_pair (some p) t = pr) ∧
    (∀ p, t.by_program.lookup p = none →
      get_pair (some p) t = (t.global_red, t.global_yellow)) ∧
    get_pair none t = (t.global_red, t.global_yellow) ∧
    get_pair (some "") t = (t.global_red, t.global_yellow) := by
  refine ⟨?_, ?_, rfl, by simp [get_pair]⟩
  · intro p pr hp hl
    simp [get_pair, hp, hl]
  · intro p hl
    by_cases hp : p = ""
    · subst hp; simp [get_pair]
    · simp [get_pair, hp, hl]

/-- Witness for C9 at a concrete configuration: program "MED" resolves to
its override pair. -/
theorem c9_threshold_resolver_total_witness : get_pair (some "MED") tEx = (30, 50) :=
  (c9_threshold_resolver_total tEx).1 "MED" (30, 50) (by decide) (by decide)

lemma mem_dedupLast {x : CleanScoreRow} :
    ∀ {l : List CleanScoreRow}, x ∈ dedupLast l → x ∈ l := by
  intro l
  induction l with
  | nil => simp [dedupLast]
  | cons r rest ih =>
      simp only [dedupLast]
      split_ifs with h
      · intro hx; exact List.mem_cons_of_mem _ (ih hx)
      · intro hx
        rcases List.mem_cons.mp hx with h1 | h1
        · exact h1 ▸ List.mem_cons_self _ _
        · exact List.mem_cons_of_mem _ (ih h1)

lemma nodup_keys_dedupLast (l : List CleanScoreRow) :
    ((dedupLast l).map recKey).Nodup := by
  induction l with
  | nil => simp [dedupLast]
  | cons r rest ih =>
      simp only [dedupLast]
      split_ifs with h
      · exact ih
      · simp only [List.map_cons, List.nodup_cons]
        refine ⟨?_, ih⟩
        intro hmem
        rcases List.mem_map.mp hmem with ⟨x, hx, hkey⟩
        have hx' : x ∈ rest := mem_dedupLast hx
        have hany : rest.any (fun y => decide (recKey y = recKey r)) = true :=
          List.any_eq_true.mpr ⟨x, hx', by simp [hkey]⟩
        exact h hany

lemma uniqueKeys_upload (master new : List CleanScoreRow) (h : uniqueKeys master) :
    uniqueKeys (upload master new) := by
  unfold upload uniqueKeys
  split_ifs with hm
  · exact nodup_keys_dedupLast new
  · rw [List.map_append]
    refine List.Nodup.append ?_ (nodup_keys_dedupLast new) ?_
    · exact List.Nodup.sublist (List.Sublist.map recKey (List.filter_sublist master)) h
    · intro k hk1 hk2
      rcases List.mem_map.mp hk1 with ⟨m1, hm1, hkey1⟩
      rcases List.mem_map.mp hk2 with ⟨x, hx, hkey2⟩
      have hcond := (List.mem_filter.mp hm1).2
      have : (dedupLast new).any (fun y => decide (recKey y = recKey m1)) = true :=
        List.any_eq_true.mpr ⟨x, hx, by simp [hkey2, hkey1]⟩
      simp [this] at hcond

lemma upload_single_filter (m : List CleanScoreRow) (r : CleanScoreRow) :
    (upload m [r]).filter (fun x => decide (recKey x = recKey r)) = [r] := by
  have hd : dedupLast [r] = [r] := rfl
  simp only [upload, hd]
  split_ifs with hm
  · simp
  · rw [List.filter_append]
    have h1 : (m.filter fun x =>
        !([r].any fun y => decide (recKey y = recKey x))).filter
          (fun x => decide (recKey x = recKey r)) = [] := by
      rw [List.filter_eq_nil_iff]
      intro a ha
      have h2 := (List.mem_filter.mp ha).2
      simp only [List.any_cons, List.any_nil, Bool.or_false, Bool.not_eq_true',
        decide_eq_false_iff_not] at h2
      simp only [decide_eq_true_eq]
      exact fun hk => h2 hk.symm
    rw [h1]
    simp

/-- C7: the score-store upsert preserves the uniqueness invariant — after
any sequence of uploads starting from an empty master, at most one record
exists per (student, week, subject, type) key — and uploading the same key
twice with different scores leaves exactly one record for that key, holding
the most recently uploaded value. -/
theorem c7_upsert_uniqueness :
    (∀ uploads : List (List CleanScoreRow), uniqueKeys (uploads.foldl upload [])) ∧
    (∀ (master : List CleanScoreRow) (r1 r2 : CleanScoreRow),
      recKey r1 = recKey r2 → r1.raw_score ≠ r2.raw_score →
      (upload (upload master [r1]) [r2]).filter
        (fun x => decide (recKey x = recKey r2)) = [r2]) := by
  constructor
  · intro uploads
    have hgen : ∀ (us : List (List CleanScoreRow)) (m : List CleanScoreRow),
        uniqueKeys m → uniqueKeys (us.foldl upload m) := by
      intro us
      induction us with
      | nil => intro m hm; exact hm
      | cons u us ih => intro m hm; exact ih _ (uniqueKeys_upload m u hm)
    exact hgen uploads [] (by simp [uniqueKeys])
  · intro master r1 r2 _ _
    exact upload_single_filter (upload master [r1]) r2

/-- Witness for C7: uploading the same key twice leaves exactly the later
record. -/
theorem c7_upsert_uniqueness_witness :
    (upload (upload [] [rec1]) [rec2]).filter
      (fun x => decide (recKey x = recKey rec2)) = [rec2] :=
  c7_upsert_uniqueness.2 [] rec1 rec2 (by decide) (by decide)

lemma foldl_runStep_proj (s : List Band) : ∀ cr cy mr my : Nat,
    s.foldl runStep (cr, cy, mr, my) =
      ((runState Band.RED s cr mr).1, (runState Band.YELLOW s cy my).1,
       (runState Band.RED s cr mr).2, (runState Band.YELLOW s cy my).2) := by
  induction s with
  | nil => intro cr cy mr my; rfl
  | cons b t ih =>
      intro cr cy mr my
      show t.foldl runStep (runStep (cr, cy, mr, my) b) = _
      rw [show runStep (cr, cy, mr, my) b =
        (stepRun Band.RED cr b, stepRun Band.YELLOW cy b,
         max mr (stepRun Band.RED cr b), max my (stepRun Band.YELLOW cy b)) from rfl]
      rw [ih]
      rfl

lemma runState_snd (target : Band) : ∀ (s : List Band) (c m : Nat),
    (runState target s c m).2 = max m (maxRunFrom target c s) := by
  intro s
  induction s with
  | nil => intro c m; simp [runState, maxRunFrom]
  | cons b t ih =>
      intro c m
      show (runState target t (stepRun target c b) (max m (stepRun target c b))).2 = _
      rw [ih]
      by_cases hb : b = target
      · simp only [maxRunFrom, if_pos hb, stepRun]
        rw [max_assoc]
      · simp only [maxRunFrom, if_neg hb, stepRun]
        rw [Nat.max_zero]

lemma le_maxRunFrom_replicate (target : Band) (l : List Band) :
    ∀ (p c : Nat), 1 ≤ p → c + p ≤ maxRunFrom target c (List.replicate p target ++ l) := by
  intro p
  induction p with
  | zero => intro c h; exact absurd h (by omega)
  | succ n ih =>
      intro c _
      rw [List.replicate_succ, List.cons_append]
      simp only [maxRunFrom, if_pos rfl]
      rcases Nat.eq_zero_or_pos n with hn | hn
      · subst hn
        exact le_trans (by omega) (le_max_left _ _)
      · calc c + (n + 1) = (c + 1) + n := by omega
          _ ≤ maxRunFrom target (c + 1) (List.replicate n target ++ l) := ih (c + 1) hn
          _ ≤ max (c + 1) (maxRunFrom target (c + 1) (List.replicate n target ++ l)) :=
              le_max_right _ _

lemma le_maxRunFrom_of_run (target : Band) (k : Nat) (hk : 1 ≤ k) :
    ∀ (l₁ l₂ : List Band) (c : Nat),
      k ≤ maxRunFrom target c (l₁ ++ (List.replicate k target ++ l₂)) := by
  intro l₁
  induction l₁ with
  | nil =>
      intro l₂ c
      rw [List.nil_append]
      exact le_trans (by omega) (le_maxRunFrom_replicate target l₂ k c hk)
  | cons b t ih =>
      intro l₂ c
      rw [List.cons_append]
      by_cases hb : b = target
      · simp only [maxRunFrom, if_pos hb]
        exact le_trans (ih l₂ (c + 1)) (le_max_right _ _)
      · simp only [maxRunFrom, if_neg hb]
        exact ih l₂ 0

lemma maxRunFrom_cases (target : Band) (k : Nat) (hk : 1 ≤ k) :
    ∀ (s : List Band) (c : Nat), k ≤ maxRunFrom target c s →
      (∃ p l₂, s = List.replicate p target ++ l₂ ∧ 1 ≤ p ∧ k ≤ c + p) ∨
      (∃ l₁ l₂, s = l₁ ++ (List.replicate k target ++ l₂)) := by
  intro s
  induction s with
  | nil =>
      intro c h
      simp only [maxRunFrom] at h
      omega
  | cons b t ih =>
      intro c h
      by_cases hb : b = target
      · simp only [maxRunFrom, if_pos hb] at h
        rcases le_max_iff.mp h with h1 | h1
        · left
          exact ⟨1, t, by simp [hb], by omega, by omega⟩
        · rcases ih (c + 1) h1 with ⟨p, l₂, hs, hp, hkp⟩ | ⟨l₁, l₂, hs⟩
          · left
            refine ⟨p + 1, l₂, ?_, by omega, by omega⟩
            rw [List.replicate_succ, List.cons_append, ← hs, hb]
          · right
            exact ⟨b :: l₁, l₂, by rw [List.cons_append, hs]⟩
      · simp only [maxRunFrom, if_neg hb] at h
        rcases ih 0 h with ⟨p, l₂, hs, hp, hkp⟩ | ⟨l₁, l₂, hs⟩
        · right
          refine ⟨[b], List.replicate (p - k) target ++ l₂, ?_⟩
          have hrep : List.replicate p target =
              List.replicate k target ++ List.replicate (p - k) target := by
            rw [← List.replicate_add]
            congr 1
            omega
          rw [hs, hrep, List.append_assoc]
          rfl
        · right
          exact ⟨b :: l₁, l₂, by rw [List.cons_append, hs]⟩

lemma hasRun_iff_maxRunFrom (target : Band) (k : Nat) (hk : 1 ≤ k) (s : List Band) :
    HasRun target k s ↔ k ≤ maxRunFrom target 0 s := by
  constructor
  · rintro ⟨l₁, l₂, rfl⟩
    exact le_maxRunFrom_of_run target k hk l₁ l₂ 0
  · intro h
    rcases maxRunFrom_cases target k hk s 0 h with ⟨p, l₂, hs, hp, hkp⟩ | ⟨l₁, l₂, hs⟩
    · refine ⟨[], List.replicate (p - k) target ++ l₂, ?_⟩
      have hrep : List.replicate p target =
          List.replicate k target ++ List.replicate (p - k) target := by
        rw [← List.replicate_add]
        congr 1
        omega
      rw [hs, hrep, List.append_assoc]
      rfl
    · exact ⟨l₁, l₂, hs⟩

/-- C3: the consecutive-run detector of `risk_snapshot_basic` flags a band
sequence — produces a non-empty reason string — exactly when the sequence
contains 2 consecutive RED weeks or 3 consecutive YELLOW weeks (a GREEN or
GRAY week breaks both runs, a RED week breaks a YELLOW run and conversely,
which is what `maxRunFrom`-reachability of a replicated segment expresses);
and on [RED,RED,GREEN,YELLOW,YELLOW,YELLOW] it produces both reasons,
concatenated into one entry. -/
theorem c3_consecutive_run_detector :
    (∀ s : List Band,
      risk_for s ≠ "" ↔ HasRun Band.RED 2 s ∨ HasRun Band.YELLOW 3 s) ∧
    risk_for [Band.RED, Band.RED, Band.GREEN, Band.YELLOW, Band.YELLOW, Band.YELLOW] =
      "連續≥2 週紅燈; 連續≥3 週黃燈" := by
  constructor
  · intro s
    have hred : (s.foldl runStep (0, 0, 0, 0)).2.2.1 = maxRunFrom Band.RED 0 s := by
      rw [foldl_runStep_proj]
      show (runState Band.RED s 0 0).2 = _
      rw [runState_snd]
      exact Nat.zero_max _
    have hyel : (s.foldl runStep (0, 0, 0, 0)).2.2.2 = maxRunFrom Band.YELLOW 0 s := by
      rw [foldl_runStep_proj]
      show (runState Band.YELLOW s 0 0).2 = _
      rw [runState_snd]
      exact Nat.zero_max _
    simp only [risk_for, hred, hyel]
    by_cases h2 : 2 ≤ maxRunFrom Band.RED 0 s <;>
      by_cases h3 : 3 ≤ maxRunFrom Band.YELLOW 0 s
    · simp only [if_pos h2, if_pos h3]
      exact iff_of_true (by decide)
        (Or.inl ((hasRun_iff_maxRunFrom Band.RED 2 (by omega) s).mpr h2))
    · simp only [if_pos h2, if_neg h3]
      exact iff_of_true (by decide)
        (Or.inl ((hasRun_iff_maxRunFrom Band.RED 2 (by omega) s).mpr h2))
    · simp only [if_neg h2, if_pos h3]
      exact iff_of_true (by decide)
        (Or.inr ((hasRun_iff_maxRunFrom Band.YELLOW 3 (by omega) s).mpr h3))
    · simp only [if_neg h2, if_neg h3]
      refine iff_of_false (by decide) ?_
      rintro (hr | hy)
      · exact h2 ((hasRun_iff_maxRunFrom Band.RED 2 (by omega) s).mp hr)
      · exact h3 ((hasRun_iff_maxRunFrom Band.YELLOW 3 (by omega) s).mp hy)
  · decide

lemma range'_drop : ∀ (n m s : Nat), (List.range' s n).drop m = List.range' (s + m) (n - m) := by
  intro n
  induction n with
  | zero => intro m s; simp
  | succ k ih =>
      intro m s
      cases m with
      | zero => simp
      | succ m' =>
          rw [List.range'_succ]
          show (List.range' (s + 1) k).drop m' = _
          rw [ih m' (s + 1)]
          congr 1 <;> omega

lemma range'_take : ∀ (n m s : Nat), (List.range' s n).take m = List.range' s (min m n) := by
  intro n
  induction n with
  | zero => intro m s; simp
  | succ k ih =>
      intro m s
      cases m with
      | zero => simp
      | succ m' =>
          rw [List.range'_succ]
          show s :: (List.range' (s + 1) k).take m' = _
          rw [ih m' (s + 1)]
          rw [show min (m' + 1) (k + 1) = (min m' k) + 1 from by omega]
          rw [List.range'_succ]

lemma winWeeks_eq (i W : Nat) : winWeeks i W = List.range' (i + 1) (min W (18 - i)) := by
  unfold winWeeks WEEKS_FULL
  rw [range'_drop 18 i 1, range'_take (18 - i) W (1 + i)]
  congr 1
  omega

lemma winWeeks_inj {i j W : Nat} (hW : 1 ≤ W) (hj : j + W ≤ 18)
    (h : winWeeks i W = winWeeks j W) : i = j := by
  rw [winWeeks_eq, winWeeks_eq] at h
  have hjm : min W (18 - j) = W := Nat.min_eq_left (by omega)
  have hl := congrArg List.length h
  simp only [List.length_range'] at hl
  rw [hjm] at h hl
  rw [hl] at h
  obtain ⟨n, rfl⟩ : ∃ n, W = n + 1 := ⟨W - 1, by omega⟩
  rw [List.range'_succ, List.range'_succ] at h
  injection h with h1 _
  omega

lemma mem_student_alert_rows {row : AlertRow} {sid : String} {bio mol : Nat → Option ℚ}
    {red yellow : ℚ} {W mr mt : Nat} :
    row ∈ student_alert_rows sid bio mol red yellow W mr mt ↔
      ∃ i, i ∈ List.range (19 - W) ∧
        windowRow sid bio mol red yellow W mr mt i = some row := by
  unfold student_alert_rows
  exact List.mem_filterMap

lemma windowRow_weeks {sid : String} {bio mol : Nat → Option ℚ} {red yellow : ℚ}
    {W mr mt i : Nat} {row : AlertRow}
    (h : windowRow sid bio mol red yellow W mr mt i = some row) :
    row.weeks = winWeeks i W ∧
    ((winWeeks i W).all fun w => (bio w).isSome) = true ∧
    ((winWeeks i W).all fun w => (mol w).isSome) = true := by
  simp only [windowRow] at h
  split at h
  next hc =>
    split at h
    next =>
      have hr := Option.some_inj.mp h
      subst hr
      rw [Bool.and_eq_true] at hc
      exact ⟨rfl, hc.1, hc.2⟩
    next => exact absurd h (by simp)
  next => exact absurd h (by simp)

lemma windowRow_trigBio {sid : String} {bio mol : Nat → Option ℚ} {red yellow : ℚ}
    {W mr mt i : Nat} {row : AlertRow}
    (h : windowRow sid bio mol red yellow W mr mt i = some row) :
    row.trigBio.isSome = subjectTrigger ((winWeeks i W).filterMap bio) red yellow mr mt := by
  simp only [windowRow] at h
  split at h
  next =>
    split at h
    next =>
      have hr := Option.some_inj.mp h
      subst hr
      rcases Bool.eq_false_or_eq_true
        (subjectTrigger ((winWeeks i W).filterMap bio) red yellow mr mt) with htb | htb <;>
        simp [htb]
    next => exact absurd h (by simp)
  next => exact absurd h (by simp)

lemma windowRow_pos (sid : String) (bio mol : Nat → Option ℚ) (red yellow : ℚ)
    (W mr mt i : Nat)
    (hb : ((winWeeks i W).all fun w => (bio w).isSome) = true)
    (hm : ((winWeeks i W).all fun w => (mol w).isSome) = true)
    (ht : subjectTrigger ((winWeeks i W).filterMap bio) red yellow mr mt = true) :
    ∃ row, windowRow sid bio mol red yellow W mr mt i = some row ∧
      row.weeks = winWeeks i W ∧ row.trigBio.isSome = true := by
  simp only [windowRow, hb, hm, ht, Bool.and_self, if_true, Bool.true_or]
  exact ⟨_, rfl, rfl, rfl⟩

lemma subjectTrigger_iff (series : List ℚ) (red yellow : ℚ) (mr mt : Nat) :
    subjectTrigger series red yellow mr mt = true ↔
      (mr ≤ series.countP (fun q => decide (q ≤ red)) ∧
       mt ≤ series.countP (fun q => decide (q ≤ red)) +
            series.countP (fun q => decide (red < q ∧ q ≤ yellow))) := by
  simp [subjectTrigger, counts]

/-- Counterexample to C1 as stated: the claim quantifies over windows all
of whose weeks have a non-missing score *for a subject* and asserts the
window triggers for that subject iff its RED count is at least min_red and
its RED+YELLOW count at least min_total.  Here the Biochem window over
weeks 1-4 is complete with scores 30,30,60,60 — redCount=2 and
redCount+yellowCount=4 pass the thresholds — yet the detector reports no
Biochem trigger for that window, because MolBio is missing week 4 and the
skip test `sub.isna().any().any()` (`score_dashboard.py` line 204) looks at
both subjects. -/
theorem c1_per_subject_window_counterexample :
    ((winWeeks 0 4).all fun w => (bioC1 w).isSome) = true ∧
    subjectTrigger ((winWeeks 0 4).filterMap bioC1) 40 70 2 4 = true ∧
    ((student_alert_rows "S1" bioC1 molC1 40 70 4 2 4).filter
        (fun row => decide (row.weeks = winWeeks 0 4) && row.trigBio.isSome)) = [] := by
  decide

/-- C1 (amended): in the AND-rule window detector, for every student and
every contiguous window of `W` consecutive weeks all of whose weeks have a
non-missing score in BOTH subjects, the detector reports a Biochem trigger
for exactly that window iff the window's RED count (scores ≤ red_max) is at
least min_red and the RED+YELLOW count (adding scores with red_max < s ≤
yellow_max) is at least min_total; and concretely, with red_max=40,
yellow_max=70, min_red=2, min_total=4, the window scores [35,35,65,65]
trigger while [35,75,75,75] do not. -/
theorem c1_and_rule_window_trigger :
    (∀ (sid : String) (bio mol : Nat → Option ℚ) (red yellow : ℚ) (W mr mt i : Nat),
      1 ≤ W → i + W ≤ 18 →
      ((winWeeks i W).all fun w => (bio w).isSome) = true →
      ((winWeeks i W).all fun w => (mol w).isSome) = true →
      (((student_alert_rows sid bio mol red yellow W mr mt).filter
          (fun row => decide (row.weeks = winWeeks i W) && row.trigBio.isSome)) ≠ [] ↔
        (mr ≤ ((winWeeks i W).filterMap bio).countP (fun q => decide (q ≤ red)) ∧
         mt ≤ ((winWeeks i W).filterMap bio).countP (fun q => decide (q ≤ red)) +
              ((winWeeks i W).filterMap bio).countP
                (fun q => decide (red < q ∧ q ≤ yellow))))) ∧
    subjectTrigger [35, 35, 65, 65] 40 70 2 4 = true ∧
    subjectTrigger [35, 75, 75, 75] 40 70 2 4 = false := by
  refine ⟨?_, by decide, by decide⟩
  intro sid bio mol red yellow W mr mt i hW hiW hb hm
  constructor
  · intro hne
    obtain ⟨row, hrow⟩ := List.exists_mem_of_ne_nil _ hne
    have hmem := (List.mem_filter.mp hrow).1
    have hpred := (List.mem_filter.mp hrow).2
    rw [Bool.and_eq_true, decide_eq_true_eq] at hpred
    obtain ⟨j, hj, hwr⟩ := mem_student_alert_rows.mp hmem
    have hjW : j + W ≤ 18 := by
      have := List.mem_range.mp hj
      omega
    obtain ⟨hweeks, -, -⟩ := windowRow_weeks hwr
    have hij : i = j := winWeeks_inj hW hjW (by rw [← hpred.1, hweeks])
    subst hij
    have htb := windowRow_trigBio hwr
    rw [hpred.2] at htb
    exact (subjectTrigger_iff _ red yellow mr mt).mp htb.symm
  · intro hcnt
    obtain ⟨row, hrow, hweeks, htb⟩ := windowRow_pos sid bio mol red yellow W mr mt i hb hm
      ((subjectTrigger_iff _ red yellow mr mt).mpr hcnt)
    have hmem : row ∈ student_alert_rows sid bio mol red yellow W mr mt :=
      mem_student_alert_rows.mpr ⟨i, List.mem_range.mpr (by omega), hrow⟩
    exact List.ne_nil_of_mem (List.mem_filter.mpr ⟨hmem, by simp [hweeks, htb]⟩)

/-- Witness for C1: with Biochem scores 35,35,65,65 on weeks 1-4 and
thresholds red_max=40, yellow_max=70, min_red=2, min_total=4, the window
starting at week 1 is complete and is reported with a Biochem trigger. -/
theorem c1_and_rule_window_trigger_witness :
    ((winWeeks 0 4).all fun w => (bioEx w).isSome) = true ∧
    ((student_alert_rows "S1" bioEx molEx 40 70 4 2 4).filter
        (fun row => decide (row.weeks = winWeeks 0 4) && row.trigBio.isSome)) ≠ [] :=
  ⟨by decide,
   (c1_and_rule_window_trigger.1 "S1" bioEx molEx 40 70 4 2 4 0 (by decide) (by decide)
      (by decide) (by decide)).mpr (by decide)⟩

/-- Counterexample to C4 as stated: the Biochem window over weeks 1-4 is
complete (scores 35,35,65,65) and satisfies the AND rule, yet the detector
emits no row at all, because the MolBio score of week 1 is missing and the
skip test `sub.isna().any().any()` looks at both subjects — so a window is
not "evaluated for a subject iff every week has a non-missing score for
that subject". -/
theorem c4_per_subject_gap_counterexample :
    ((winWeeks 0 4).all fun w => (bioC4 w).isSome) = true ∧
    subjectTrigger ((winWeeks 0 4).filterMap bioC4) 40 70 2 4 = true ∧
    student_alert_rows "S1" bioC4 molC4 40 70 4 2 4 = [] := by
  decide

/-- C4 (amended): a window is evaluated only when every week of it has a
non-missing score in BOTH subjects; a gap in either subject skips the
window entirely for both subjects, and in particular the Biochem window
scores [35,35,missing,65] are never evaluated for that window start. -/
theorem c4_amended_gap_skips_window :
    (∀ (sid : String) (bio mol : Nat → Option ℚ) (red yellow : ℚ) (W mr mt i : Nat),
      1 ≤ W →
      (((winWeeks i W).all fun w => (bio w).isSome) = false ∨
       ((winWeeks i W).all fun w => (mol w).isSome) = false) →
      (student_alert_rows sid bio mol red yellow W mr mt).filter
        (fun row => decide (row.weeks = winWeeks i W)) = []) ∧
    student_alert_rows "S1" bioGap molEx 40 70 4 2 4 = [] := by
  constructor
  · intro sid bio mol red yellow W mr mt i hW hgap
    rw [List.filter_eq_nil_iff]
    intro row hrow
    obtain ⟨j, hj, hwr⟩ := mem_student_alert_rows.mp hrow
    have hjW : j + W ≤ 18 := by
      have := List.mem_range.mp hj
      omega
    obtain ⟨hweeks, hba, hma⟩ := windowRow_weeks hwr
    simp only [decide_eq_true_eq]
    intro heq
    have hij : i = j := winWeeks_inj hW hjW (by rw [← heq, hweeks])
    subst hij
    rcases hgap with hg | hg
    · exact absurd (hba.symm.trans hg) (by decide)
    · exact absurd (hma.symm.trans hg) (by decide)
  · decide

/-- Witness for the amended C4 at the spec's concrete input: with Biochem
week 3 missing, no alert row is reported for the window over weeks 1-4. -/
theorem c4_amended_gap_skips_window_witness :
    (student_alert_rows "S1" bioGap molEx 40 70 4 2 4).filter
      (fun row => decide (row.weeks = winWeeks 0 4)) = [] :=
  c4_amended_gap_skips_window.1 "S1" bioGap molEx 40 70 4 2 4 0 (by decide)
    (Or.inl (by decide))

lemma midGap_mem_iff (weekly mid fin gap : Option ℚ) (gy ml fl cg : ℚ) :
    AdvReason.midGap ∈ adv_reasons weekly mid fin gap gy ml fl cg ↔
      ∃ w m, weekly = some w ∧ mid = some m ∧ gy ≤ w ∧ m < ml := by
  rcases weekly with _ | w <;> rcases mid with _ | m <;> rcases fin with _ | f <;>
    rcases gap with _ | g <;>
    simp only [adv_reasons, midPiece, finPiece, gapPiece, List.mem_append,
      List.mem_singleton, List.not_mem_nil] <;>
    (try split_ifs) <;> simp_all

lemma finGap_mem_iff (weekly mid fin gap : Option ℚ) (gy ml fl cg : ℚ) :
    AdvReason.finGap ∈ adv_reasons weekly mid fin gap gy ml fl cg ↔
      ∃ w f, weekly = some w ∧ fin = some f ∧ gy ≤ w ∧ f < fl := by
  rcases weekly with _ | w <;> rcases mid with _ | m <;> rcases fin with _ | f <;>
    rcases gap with _ | g <;>
    simp only [adv_reasons, midPiece, finPiece, gapPiece, List.mem_append,
      List.mem_singleton, List.not_mem_nil] <;>
    (try split_ifs) <;> simp_all

lemma crossGap_mem_iff (weekly mid fin : Option ℚ) (bio mol : Option ℚ) (gy ml fl cg : ℚ) :
    AdvReason.crossGap ∈ adv_reasons weekly mid fin (cross_gap_of bio mol) gy ml fl cg ↔
      ∃ b m, bio = some b ∧ mol = some m ∧ cg ≤ |b - m| := by
  rcases weekly with _ | w <;> rcases mid with _ | m <;> rcases fin with _ | f <;>
    rcases bio with _ | b <;> rcases mol with _ | m2 <;>
    simp only [adv_reasons, midPiece, finPiece, gapPiece, cross_gap_of, List.mem_append,
      List.mem_singleton, List.not_mem_nil] <;>
    (try split_ifs) <;> simp_all

lemma adv_output_nonempty {merged : List MergedRow} {t : Thresholds} {sid : String}
    {r : List AdvReason} (h : (sid, r) ∈ (risk_snapshot_advanced merged t).2) : r ≠ [] := by
  simp only [risk_snapshot_advanced] at h
  split at h
  · simp at h
  · obtain ⟨sid', _, heq⟩ := List.mem_filterMap.mp h
    split at heq
    next hne =>
      have := Option.some_inj.mp heq
      have hr : studentAdvRow merged t sid' = r := congrArg Prod.snd this
      rw [← hr]
      assumption
    next => exact absurd heq (by simp)

lemma adv_mem_output {merged : List MergedRow} {t : Thresholds} {sid : String}
    (hne : ¬merged.length = 0)
    (hid : sid ∈ sortBy strLe
      (((merged.filter fun r => r.ty == "WEEKLY").map fun r => r.student_id).dedup))
    (hrow : studentAdvRow merged t sid ≠ []) :
    (sid, studentAdvRow merged t sid) ∈ (risk_snapshot_advanced merged t).2 := by
  simp only [risk_snapshot_advanced, if_neg hne]
  exact List.mem_filterMap.mpr ⟨sid, hid, by simp [hrow]⟩

/-- C6: each divergence condition of `risk_snapshot_advanced` fires exactly
when both of its operands are present and the comparison holds — so a
missing operand skips the condition without error and without a false
trigger (in particular the cross-subject gap is missing as soon as either
subject's weekly mean is); all triggered conditions are collected into the
student's single reason entry and students with no triggered condition are
excluded from the output; concretely weekly_mean=75 ≥ yellow_max=70 with
midterm_mean=55 < mid_low=60 triggers exactly the midterm-gap reason, and a
missing midterm mean triggers nothing. -/
theorem c6_divergence_condition_skipping :
    (∀ (weekly mid fin : Option ℚ) (bio mol : Option ℚ) (gy ml fl cg : ℚ),
      (AdvReason.midGap ∈ adv_reasons weekly mid fin (cross_gap_of bio mol) gy ml fl cg ↔
        ∃ w m, weekly = some w ∧ mid = some m ∧ gy ≤ w ∧ m < ml) ∧
      (AdvReason.finGap ∈ adv_reasons weekly mid fin (cross_gap_of bio mol) gy ml fl cg ↔
        ∃ w f, weekly = some w ∧ fin = some f ∧ gy ≤ w ∧ f < fl) ∧
      (AdvReason.crossGap ∈ adv_reasons weekly mid fin (cross_gap_of bio mol) gy ml fl cg ↔
        ∃ b m, bio = some b ∧ mol = some m ∧ cg ≤ |b - m|)) ∧
    (∀ (merged : List MergedRow) (t : Thresholds) (sid : String) (r : List AdvReason),
      (sid, r) ∈ (risk_snapshot_advanced merged t).2 → r ≠ []) ∧
    adv_reasons (some 75) (some 55) none (cross_gap_of none none) 70 60 60 20 =
      [AdvReason.midGap] ∧
    adv_reasons (some 75) none none (cross_gap_of none none) 70 60 60 20 = [] := by
  refine ⟨?_, ?_, by decide, by decide⟩
  · intro weekly mid fin bio mol gy ml fl cg
    exact ⟨midGap_mem_iff weekly mid fin (cross_gap_of bio mol) gy ml fl cg,
           finGap_mem_iff weekly mid fin (cross_gap_of bio mol) gy ml fl cg,
           crossGap_mem_iff weekly mid fin bio mol gy ml fl cg⟩
  · intro merged t sid r h
    exact adv_output_nonempty h

/-- Witness for C6: the student flagged in the concrete midterm-gap scenario
indeed carries a non-empty reason list.  (Rational division does not reduce
definitionally, so the means are evaluated through `norm_num` rather than
`decide`.) -/
theorem c6_divergence_condition_skipping_witness :
    ([AdvReason.midGap] : List AdvReason) ≠ [] := by
  have h75 : mean_opt [some (75 : ℚ)] = some 75 := by
    show (if ([(75 : ℚ)]).length = 0 then none
          else some (([(75 : ℚ)]).sum / (([(75 : ℚ)]).length : ℚ))) = some 75
    norm_num
  have h55 : mean_opt [some (55 : ℚ)] = some 55 := by
    show (if ([(55 : ℚ)]).length = 0 then none
          else some (([(55 : ℚ)]).sum / (([(55 : ℚ)]).length : ℚ))) = some 55
    norm_num
  have hrow : studentAdvRow [mergedW, mergedM] tEx "S1" = [AdvReason.midGap] := by
    rw [show studentAdvRow [mergedW, mergedM] tEx "S1" =
        adv_reasons (mean_opt [some 75]) (mean_opt [some 55]) (mean_opt [])
          (cross_gap_of (mean_opt [some 75]) (mean_opt [])) 70 60 60 20 from rfl,
      h75, h55]
    decide
  refine c6_divergence_condition_skipping.2.1 [mergedW, mergedM] tEx "S1"
    [AdvReason.midGap] ?_
  rw [← hrow]
  exact adv_mem_output (by decide) (by decide) (by rw [hrow]; decide)

lemma window_alert_cols (data : List (String × (Nat → Option ℚ) × (Nat → Option ℚ)))
    (red yellow : ℚ) (W mr mt : Nat) :
    (window_any_subject_alert_AND data red yellow W mr mt).1 = alertCols := by
  unfold window_any_subject_alert_AND
  split
  · rfl
  · split <;> rfl

lemma adv_cols (merged : List MergedRow) (t : Thresholds) :
    (risk_snapshot_advanced merged t).1 = ["student_id", "adv_reason"] := by
  unfold risk_snapshot_advanced
  split <;> rfl

/-- Counterexample to C5 as stated: on an empty merged frame,
`risk_snapshot_basic` returns the bare `pd.DataFrame()`, which does not have
the `student_id`/`risk_reason` columns that the non-empty case carries — the
empty result is not of the same shape as the non-empty one. -/
theorem c5_empty_shape_counterexample :
    (risk_snapshot_basic []).1 ≠ (risk_snapshot_basic [mergedW]).1 := by
  decide

/-- C5 (amended): every detector and the merger return an empty row set on
empty input and never raise; `window_any_subject_alert_AND` and
`risk_snapshot_advanced` keep the same columns as in the non-empty case,
but `risk_snapshot_basic` returns a column-less empty frame on an empty
merged input, and `apply_thresholds` omits the `assessment_key` column that
its non-empty output carries. -/
theorem c5_amended_empty_input_shapes :
    risk_snapshot_basic [] = ([], []) ∧
    (risk_snapshot_basic [mergedW]).1 = ["student_id", "risk_reason"] ∧
    (∀ (t : Thresholds) (students : List (String × Option String)),
      apply_thresholds [] t students =
        (mergedBaseCols ++ ["red_max", "yellow_max", "light"], [])) ∧
    (apply_thresholds [rec1] tEx []).1 =
      mergedBaseCols ++ ["red_max", "yellow_max", "light", "assessment_key"] ∧
    (∀ (red yellow : ℚ) (W mr mt : Nat),
      window_any_subject_alert_AND [] red yellow W mr mt = (alertCols, [])) ∧
    (∀ (data : List (String × (Nat → Option ℚ) × (Nat → Option ℚ))) (red yellow : ℚ)
      (W mr mt : Nat),
      (window_any_subject_alert_AND data red yellow W mr mt).1 = alertCols) ∧
    (∀ t : Thresholds, risk_snapshot_advanced [] t = (["student_id", "adv_reason"], [])) ∧
    (∀ (merged : List MergedRow) (t : Thresholds),
      (risk_snapshot_advanced merged t).1 = ["student_id", "adv_reason"]) := by
  refine ⟨rfl, by decide, fun t students => rfl, rfl,
    fun red yellow W mr mt => rfl, window_alert_cols, fun t => rfl, adv_cols⟩

/-- Counterexample to C8 as stated: a row whose raw score is the
non-numeric text "abc" (subject, type and week all valid) is NOT dropped —
`pd.to_numeric(..., errors="coerce")` turns the score into a missing value
and the `ok` mask never looks at the score, so the row is retained and the
reported drop count is 0. -/
theorem c8_non_numeric_score_retained_counterexample :
    (validate_scores [badC8]).2 = 0 ∧
    (validate_scores [badC8]).1 =
      [{ student_id := "S1", week := 1, subject := "BIOCHEM", ty := "WEEKLY",
         raw_score := none }] := by
  decide

/-- C8 (amended): an uploaded row is retained iff its normalised subject
and type are in their enumerations and its week lies in [1,18]; the raw
score plays no part in the mask — a non-numeric score is silently coerced
to a missing value and the row is kept.  Rows failing the enum/week checks
are dropped and their count is reported (kept + dropped = total), without a
fatal error (the function is total). -/
theorem c8_amended_upload_validation :
    (∀ (rows : List RawScoreRow) (raw : RawScoreRow), raw ∈ rows →
      (cleanRow raw ∈ (validate_scores rows).1 ↔ row_ok (cleanRow raw) = true)) ∧
    (∀ rows : List RawScoreRow,
      (validate_scores rows).1.length + (validate_scores rows).2 = rows.length) ∧
    (∀ s : String, to_numeric_coerce (RawCell.text s) = none) ∧
    (∀ r : CleanScoreRow,
      row_ok r = true ↔
        (r.subject ∈ SUBJECTS ∧ r.ty ∈ ASSESS_TYPES ∧ 1 ≤ r.week ∧ r.week ≤ 18)) := by
  refine ⟨?_, ?_, fun s => rfl, ?_⟩
  · intro rows raw hmem
    constructor
    · intro h
      exact (List.mem_filter.mp h).2
    · intro hok
      exact List.mem_filter.mpr ⟨List.mem_map_of_mem cleanRow hmem, hok⟩
  · intro rows
    simp only [validate_scores]
    rw [← List.countP_eq_length_filter]
    have hlen : (rows.map cleanRow).length = rows.length := List.length_map rows cleanRow
    rw [← hlen]
    have h := (List.length_eq_countP_add_countP row_ok (rows.map cleanRow)).symm
    simpa using h
  · intro r
    simp only [row_ok, Bool.and_eq_true, decide_eq_true_eq, and_assoc]
    rw [List.elem_iff, List.elem_iff]

/-- Witness for the amended C8: the valid-but-non-numeric row is retained. -/
theorem c8_amended_upload_validation_witness :
    cleanRow badC8 ∈ (validate_scores [badC8]).1 :=
  (c8_amended_upload_validation.1 [badC8] badC8 (by decide)).mpr (by decide)
